/-
Verification of the NCAA tournament Slack-canvas tracker.

The development shallowly embeds the repository's data pipeline:
  - services/sportService.js : fetchNcaaGames, calculateTournamentStats, mock data
  - index.js (unnamed/part_000) : updateTournamentData, the module-level tournamentData
    store, the close-game filter, and the two refresh triggers (cron + chat message)
  - services/canvasService.js and its divergent duplicate (unnamed/part_001) :
    formatGameForDisplay, formatStatisticsForDisplay, updateCanvasContent

Numeric conventions: JS numbers that always hold integers (scores, seeds, ids,
counts) are Int or Nat.  JS numbers produced by "Math.round(x * 10) / 10" are
one-decimal values; they are represented exactly as integer tenths (ten times
the JS value), and related to Mathlib's rational `round` in the theorems.
JS `Array.prototype.sort` (stable since ES2019, and in the Node 18 runtime the
repo targets) is modeled by a stable insertion sort `sortStable`.
JS `Date` formatting (`toLocaleString`, `toLocaleTimeString`) runs under a fixed
ambient locale and timezone; it is modeled as a function of the timestamp text
only.  ISO-8601 timestamps, as produced by the sports feed and
`new Date().toISOString()`, compare chronologically as strings.
-/
import Mathlib

set_option maxHeartbeats 1000000

namespace NcaaCanvas

/-- A raw game record as delivered by the sports feed (the field set of the mock
dataset in services/sportService.js).  `TimeRemainingMinutes`,
`TimeRemainingSeconds` and `Period` are `null` for scheduled games, hence
`Option`. -/
structure Game where
  GameID : Int
  Season : Int
  SeasonType : Int
  Status : String
  Day : String
  DateTime : String
  AwayTeam : String
  HomeTeam : String
  AwayTeamID : Int
  HomeTeamID : Int
  AwayTeamSeed : Int
  HomeTeamSeed : Int
  AwayTeamScore : Int
  HomeTeamScore : Int
  TimeRemainingMinutes : Option Int
  TimeRemainingSeconds : Option Int
  Period : Option String
  IsClosed : Bool
  Round : Int
  Tournament : String
  deriving DecidableEq, Repr

/-- Insert `x` into `l` directly before the first element `y` with `lt x y`;
keeps `x` after every element it does not strictly precede. -/
def insertStable (lt : α → α → Bool) (x : α) : List α → List α
  | [] => [x]
  | y :: ys => if lt x y then x :: y :: ys else y :: insertStable lt x ys

/-- Stable sort: elements are taken left to right and each is inserted after
all previously placed elements it does not strictly precede, so elements the
comparator treats as equal keep their original relative order.  This is the
behavior of JS `Array.prototype.sort` with a numeric comparator, which is
required to be stable. -/
def sortStable (lt : α → α → Bool) (l : List α) : List α :=
  l.foldl (fun acc x => insertStable lt x acc) []

/-- The fixed five-game mock dataset of services/sportService.js
(`getMockTournamentData`). -/
def getMockTournamentData : List Game :=
  [ { GameID := 1001, Season := 2025, SeasonType := 3, Status := "Final",
      Day := "2025-03-19T00:00:00", DateTime := "2025-03-19T19:15:00",
      AwayTeam := "Virginia", HomeTeam := "Colorado",
      AwayTeamID := 100, HomeTeamID := 101,
      AwayTeamSeed := 9, HomeTeamSeed := 8,
      AwayTeamScore := 57, HomeTeamScore := 63,
      TimeRemainingMinutes := some 0, TimeRemainingSeconds := some 0,
      Period := some "2H", IsClosed := true, Round := 1, Tournament := "NCAA" },
    { GameID := 1002, Season := 2025, SeasonType := 3, Status := "Final",
      Day := "2025-03-19T00:00:00", DateTime := "2025-03-19T12:15:00",
      AwayTeam := "Duquesne", HomeTeam := "BYU",
      AwayTeamID := 102, HomeTeamID := 103,
      AwayTeamSeed := 11, HomeTeamSeed := 6,
      AwayTeamScore := 71, HomeTeamScore := 69,
      TimeRemainingMinutes := some 0, TimeRemainingSeconds := some 0,
      Period := some "2H", IsClosed := true, Round := 1, Tournament := "NCAA" },
    { GameID := 1003, Season := 2025, SeasonType := 3, Status := "InProgress",
      Day := "2025-03-20T00:00:00", DateTime := "2025-03-20T14:30:00",
      AwayTeam := "NC State", HomeTeam := "Texas Tech",
      AwayTeamID := 104, HomeTeamID := 105,
      AwayTeamSeed := 10, HomeTeamSeed := 7,
      AwayTeamScore := 45, HomeTeamScore := 42,
      TimeRemainingMinutes := some 12, TimeRemainingSeconds := some 34,
      Period := some "2H", IsClosed := false, Round := 1, Tournament := "NCAA" },
    { GameID := 1004, Season := 2025, SeasonType := 3, Status := "Scheduled",
      Day := "2025-03-20T00:00:00", DateTime := "2025-03-20T19:20:00",
      AwayTeam := "Marquette", HomeTeam := "Western Kentucky",
      AwayTeamID := 106, HomeTeamID := 107,
      AwayTeamSeed := 2, HomeTeamSeed := 15,
      AwayTeamScore := 0, HomeTeamScore := 0,
      TimeRemainingMinutes := none, TimeRemainingSeconds := none,
      Period := none, IsClosed := false, Round := 1, Tournament := "NCAA" },
    { GameID := 1005, Season := 2025, SeasonType := 3, Status := "Scheduled",
      Day := "2025-03-20T00:00:00", DateTime := "2025-03-20T21:30:00",
      AwayTeam := "Kentucky", HomeTeam := "Oakland",
      AwayTeamID := 108, HomeTeamID := 109,
      AwayTeamSeed := 3, HomeTeamSeed := 14,
      AwayTeamScore := 0, HomeTeamScore := 0,
      TimeRemainingMinutes := none, TimeRemainingSeconds := none,
      Period := none, IsClosed := false, Round := 1, Tournament := "NCAA" } ]

/-- `fetchNcaaGames` of services/sportService.js.  The provider call either
resolves with a batch or rejects; the function catches any rejection, logs it
("Error fetching NCAA games: ..."), and returns the mock dataset instead of
rethrowing.  The returned pair is (games, console log lines). -/
def fetchNcaaGames (providerResult : Except String (List Game)) :
    List Game × List String :=
  match providerResult with
  | Except.ok data => (data, [])
  | Except.error msg => (getMockTournamentData, ["Error fetching NCAA games: " ++ msg])

/-- `games.filter(game => game.Status === 'Final')`. -/
def completedOf (games : List Game) : List Game :=
  games.filter fun g => g.Status == "Final"

/-- `games.filter(game => game.Status === 'InProgress')`. -/
def inProgressOf (games : List Game) : List Game :=
  games.filter fun g => g.Status == "InProgress"

/-- `games.filter(game => game.Status === 'Scheduled')`. -/
def upcomingOf (games : List Game) : List Game :=
  games.filter fun g => g.Status == "Scheduled"

/-- The upset filter shared verbatim by calculateTournamentStats
(services/sportService.js) and updateTournamentData (index.js):
`(AwayTeamSeed > HomeTeamSeed && AwayTeamScore > HomeTeamScore) ||
 (HomeTeamSeed > AwayTeamSeed && HomeTeamScore > AwayTeamScore)`
over the completed games. -/
def upsetsOf (games : List Game) : List Game :=
  (completedOf games).filter fun g =>
    decide ((g.AwayTeamSeed > g.HomeTeamSeed ∧ g.AwayTeamScore > g.HomeTeamScore) ∨
            (g.HomeTeamSeed > g.AwayTeamSeed ∧ g.HomeTeamScore > g.AwayTeamScore))

/-- `completedGames.reduce((sum, game) => sum + game.AwayTeamScore + game.HomeTeamScore, 0)`. -/
def totalPointsOf (games : List Game) : Int :=
  (completedOf games).foldl (fun sum g => sum + g.AwayTeamScore + g.HomeTeamScore) 0

/-- JS `Math.round(num / den)` on the exact rational num/den with den a natural
number: round half up, i.e. the floor of num/den + 1/2, computed with integer
floor division as (2 num + den) / (2 den).  (For den = 0 both the JS pipeline
and this definition are never used; the value is 0.) -/
def mathRound (num : Int) (den : Nat) : Int :=
  (2 * num + (den : Int)) / (2 * (den : Int))

/-- Per-team accumulator of calculateTournamentStats: one entry per object key
of `teamScores`, in key insertion order (team names are non-numeric strings, so
JS object key order is insertion order). -/
structure TeamScore where
  team : String
  points : Int
  games : Nat
  deriving DecidableEq, Repr

/-- One upsert into `teamScores`: create the entry with zeroed totals if the
key is absent, then add the score and count the appearance.  (The JS code
creates both keys first and then adds both scores; for two sequential upserts
on distinct or even equal keys the result is the same.) -/
def addTeamPoints (acc : List TeamScore) (name : String) (score : Int) : List TeamScore :=
  if acc.any fun e => e.team == name then
    acc.map fun e =>
      if e.team == name then { e with points := e.points + score, games := e.games + 1 } else e
  else
    acc ++ [{ team := name, points := score, games := 1 }]

/-- The `teamScores` accumulation loop: for every completed game, credit the
away team and then the home team. -/
def teamScoresOf (games : List Game) : List TeamScore :=
  (completedOf games).foldl
    (fun acc g => addTeamPoints (addTeamPoints acc g.AwayTeam g.AwayTeamScore)
                    g.HomeTeam g.HomeTeamScore)
    []

/-- An element of `teamsWithAvg` / `topScoringTeams`.  `avgPoints` is the JS
one-decimal number `Math.round((points / games) * 10) / 10`, stored in tenths. -/
structure TeamEntry where
  team : String
  avgPoints : Int
  totalPoints : Int
  games : Nat
  deriving DecidableEq, Repr

/-- `teamsWithAvg`: map the accumulator to display entries (with the dead
`data.games ?` guard) and keep teams with at least one game (also dead: every
entry was created with one game). -/
def teamsWithAvgOf (games : List Game) : List TeamEntry :=
  (((teamScoresOf games).map fun e =>
      { team := e.team,
        avgPoints := if e.games == 0 then 0 else mathRound (10 * e.points) e.games,
        totalPoints := e.points,
        games := e.games : TeamEntry }).filter fun t => decide (t.games > 0))

/-- `teamsWithAvg.sort((a, b) => b.avgPoints - a.avgPoints)`: stable descending
sort on the (rounded) average. -/
def sortedTeamsOf (games : List Game) : List TeamEntry :=
  sortStable (fun a b => decide (b.avgPoints < a.avgPoints)) (teamsWithAvgOf games)

/-- `teamsWithAvg.slice(0, 5)` after the sort. -/
def topScoringTeamsOf (games : List Game) : List TeamEntry :=
  (sortedTeamsOf games).take 5

/-- An element of `marginOfVictory` / `closestGames`. -/
structure MarginEntry where
  awayTeam : String
  homeTeam : String
  awayScore : Int
  homeScore : Int
  margin : Int
  winner : String
  loser : String
  deriving DecidableEq, Repr

/-- The per-game record built by the `marginOfVictory` map. -/
def marginEntryOf (g : Game) : MarginEntry :=
  { awayTeam := g.AwayTeam,
    homeTeam := g.HomeTeam,
    awayScore := g.AwayTeamScore,
    homeScore := g.HomeTeamScore,
    margin := ((g.AwayTeamScore - g.HomeTeamScore).natAbs : Int),
    winner := if g.AwayTeamScore > g.HomeTeamScore then g.AwayTeam else g.HomeTeam,
    loser := if g.AwayTeamScore > g.HomeTeamScore then g.HomeTeam else g.AwayTeam }

/-- `completedGames.map(...)` building margin entries. -/
def marginOfVictoryOf (games : List Game) : List MarginEntry :=
  (completedOf games).map marginEntryOf

/-- `[...marginOfVictory].sort((a, b) => a.margin - b.margin)`: stable ascending
sort on margin. -/
def sortedMarginsOf (games : List Game) : List MarginEntry :=
  sortStable (fun a b => decide (a.margin < b.margin)) (marginOfVictoryOf games)

/-- `closestGames = sorted.slice(0, 5)`. -/
def closestGamesOf (games : List Game) : List MarginEntry :=
  (sortedMarginsOf games).take 5

/-- The object returned by calculateTournamentStats.  The first five fields are
the JS `.length` counts; `avgPointsPerGame` is the one-decimal JS number stored
in tenths. -/
structure TournamentStats where
  totalGames : Nat
  completedGames : Nat
  inProgressGames : Nat
  upcomingGames : Nat
  upsets : Nat
  avgPointsPerGame : Int
  topScoringTeams : List TeamEntry
  closestGames : List MarginEntry
  deriving DecidableEq, Repr

/-- `calculateTournamentStats` of services/sportService.js. -/
def calculateTournamentStats (games : List Game) : TournamentStats :=
  { totalGames := games.length,
    completedGames := (completedOf games).length,
    inProgressGames := (inProgressOf games).length,
    upcomingGames := (upcomingOf games).length,
    upsets := (upsetsOf games).length,
    avgPointsPerGame :=
      if (completedOf games).length == 0 then 0
      else mathRound (10 * totalPointsOf games) (completedOf games).length,
    topScoringTeams := topScoringTeamsOf games,
    closestGames := closestGamesOf games }

/-- `NOTIFICATION_THRESHOLD` (points margin for the close-game alert), default 5. -/
def NOTIFICATION_THRESHOLD : Int := 5

/-- The close-game filter of updateTournamentData (index.js):
`currentGames.filter(game => Math.abs(game.AwayTeamScore - game.HomeTeamScore) <= NOTIFICATION_THRESHOLD)`. -/
def closeGamesOf (threshold : Int) (games : List Game) : List Game :=
  (inProgressOf games).filter fun g =>
    decide (((g.AwayTeamScore - g.HomeTeamScore).natAbs : Int) ≤ threshold)

/-- The module-level `tournamentData` store of index.js, in the shape assigned
by updateTournamentData.  `stats` and `lastUpdated` are `Option` because the
initial value of the store lacks them. -/
structure TournamentData where
  games : List Game
  currentGames : List Game
  completedGames : List Game
  upcomingGames : List Game
  closeGames : List Game
  upsets : List Game
  stats : Option TournamentStats
  lastUpdated : Option String
  deriving DecidableEq, Repr

/-- The object literal assigned to `tournamentData` inside updateTournamentData,
built from the fetched batch; `now` is `new Date().toISOString()`. -/
def buildTournamentData (gameData : List Game) (now : String) : TournamentData :=
  { games := gameData,
    currentGames := inProgressOf gameData,
    completedGames := completedOf gameData,
    upcomingGames := upcomingOf gameData,
    closeGames := closeGamesOf NOTIFICATION_THRESHOLD gameData,
    upsets := upsetsOf gameData,
    stats := some (calculateTournamentStats gameData),
    lastUpdated := some now }

/-- One run of `updateTournamentData` (index.js): the fetched batch is
processed and the new object is ASSIGNED TO the module-level `tournamentData`
store, and only then is `canvasService.updateCanvasContent` awaited; a publish
rejection is caught by the surrounding try/catch, which only logs
"Failed to update tournament data".  So the returned committed store is the
newly built snapshot whether the publish succeeded or not; `prev`, the store
before the run, is never restored.  The second component is the console log. -/
def updateTournamentData (prev : TournamentData) (fetched : List Game)
    (publishOk : Bool) (now : String) : TournamentData × List String :=
  let newData := buildTournamentData fetched now
  if publishOk then
    (newData, ["Tournament data updated successfully."])
  else
    (newData, ["Failed to update tournament data: publish error"])

/-- A Slack canvas block, as built by both copies of updateCanvasContent:
a plain-text header, a divider, a mrkdwn section, or the mrkdwn context footer. -/
inductive Block where
  | headerB (text : String)
  | divider
  | sectionB (text : String)
  | contextB (text : String)
  deriving DecidableEq, Repr

/-- JS `String(x).padStart(2, '0')`. -/
def padStart2 (s : String) : String :=
  if s.length == 0 then "00" else if s.length == 1 then "0" ++ s else s

/-- JS template interpolation of a possibly-null number. -/
def showOptInt : Option Int → String
  | none => "null"
  | some n => toString n

/-- JS template interpolation of a possibly-null string. -/
def showOptStr : Option String → String
  | none => "null"
  | some s => s

/-- `new Date(s).toLocaleTimeString('en-US', ...)` under the fixed ambient
locale and timezone: a function of the timestamp text only. -/
def toLocaleTimeStringLocal (dateTime : String) : String := dateTime

/-- `new Date(s).toLocaleString(...)` under the fixed ambient locale and
timezone: a function of the timestamp text only. -/
def toLocaleStringLocal (dateTime : String) : String := dateTime

/-- JS printing of a one-decimal number stored in tenths: an integral value
prints without a decimal point, otherwise one decimal digit is printed. -/
def showTenths (t : Int) : String :=
  let sign := if t < 0 then "-" else ""
  let a := t.natAbs
  if a % 10 == 0 then sign ++ toString (a / 10)
  else sign ++ toString (a / 10) ++ "." ++ toString (a % 10)

/-- Chronological comparison of the feed's ISO-8601 timestamps
(`new Date(a) - new Date(b) < 0`): lexicographic on the text. -/
def dateLt (a b : String) : Bool := compare a b == Ordering.lt

/-- `formatGameForDisplay` (identical in services/canvasService.js and in the
duplicate copy, up to a text-encoding artifact of the duplicate): one formatted
line per game with status emoji, seed-qualified names, score or "vs", an upset
marker for completed upsets, and a trailing status/round annotation. -/
def formatGameForDisplay (g : Game) : String :=
  let statusEmoji :=
    if g.Status == "Final" then "🏁"
    else if g.Status == "InProgress" then "🏀"
    else if g.Status == "Scheduled" then "📅"
    else "❓"
  let statusText :=
    if g.Status == "Final" then "FINAL"
    else if g.Status == "InProgress" then
      showOptStr g.Period ++ " " ++ showOptInt g.TimeRemainingMinutes ++ ":" ++
        padStart2 (showOptInt g.TimeRemainingSeconds)
    else if g.Status == "Scheduled" then toLocaleTimeStringLocal g.DateTime
    else g.Status
  let isUpset :=
    g.Status == "Final" &&
      decide ((g.AwayTeamSeed > g.HomeTeamSeed ∧ g.AwayTeamScore > g.HomeTeamScore) ∨
              (g.HomeTeamSeed > g.AwayTeamSeed ∧ g.HomeTeamScore > g.AwayTeamScore))
  let scorePart :=
    if g.Status != "Scheduled" then
      toString g.AwayTeamScore ++ " - " ++ toString g.HomeTeamScore ++ " "
    else "vs "
  statusEmoji ++ " " ++
    "(" ++ toString g.AwayTeamSeed ++ ") *" ++ g.AwayTeam ++ "* " ++
    scorePart ++
    "*" ++ g.HomeTeam ++ "* (" ++ toString g.HomeTeamSeed ++ ")" ++
    (if isUpset then " 🚨 UPSET! 🚨" else "") ++
    "\n└ _" ++ statusText ++ " | Round " ++ toString g.Round ++ "_"

/-- `formatStatisticsForDisplay` of services/canvasService.js. -/
def formatStatisticsForDisplayCs (stats : TournamentStats) : String :=
  let t1 := "*Tournament Progress*: " ++ toString stats.completedGames ++ " completed, " ++
    toString stats.inProgressGames ++ " in progress, " ++
    toString stats.upcomingGames ++ " upcoming\n"
  let t2 := t1 ++ (if stats.upsets > 0 then "*Upsets*: " ++ toString stats.upsets ++ " so far\n" else "")
  let t3 := t2 ++ "*Average Points*: " ++ showTenths stats.avgPointsPerGame ++ " points per game\n\n"
  let t4 := t3 ++
    (if stats.topScoringTeams.length > 0 then
      "*Top Scoring Teams (Avg)*:\n" ++
        String.join (stats.topScoringTeams.enum.map fun p =>
          toString (p.1 + 1) ++ ". " ++ p.2.team ++ ": " ++ showTenths p.2.avgPoints ++ " ppg\n") ++
        "\n"
    else "")
  t4 ++
    (if stats.closestGames.length > 0 then
      "*Closest Games*:\n" ++
        String.join (stats.closestGames.enum.map fun p =>
          toString (p.1 + 1) ++ ". " ++ p.2.winner ++ " def. " ++ p.2.loser ++ " by " ++
            toString p.2.margin ++ " (" ++ toString p.2.awayScore ++ "-" ++
            toString p.2.homeScore ++ ")\n")
    else "")

/-- `formatStatisticsForDisplay` of the duplicate copy (unnamed/part_001); it
differs from the services/canvasService.js copy in three labels. -/
def formatStatisticsForDisplayP1 (stats : TournamentStats) : String :=
  let t1 := "*Tournament Progress*: " ++ toString stats.completedGames ++ " completed, " ++
    toString stats.inProgressGames ++ " in progress, " ++
    toString stats.upcomingGames ++ " upcoming\n"
  let t2 := t1 ++ (if stats.upsets > 0 then "*Upsets*: " ++ toString stats.upsets ++ " so far\n" else "")
  let t3 := t2 ++ "*Average Points Per Game*: " ++ showTenths stats.avgPointsPerGame ++ "\n\n"
  let t4 := t3 ++
    (if stats.topScoringTeams.length > 0 then
      "*Top Scoring Teams*:\n" ++
        String.join (stats.topScoringTeams.enum.map fun p =>
          toString (p.1 + 1) ++ ". " ++ p.2.team ++ " - " ++ showTenths p.2.avgPoints ++ " ppg\n") ++
        "\n"
    else "")
  t4 ++
    (if stats.closestGames.length > 0 then
      "*Closest Games*:\n" ++
        String.join (stats.closestGames.enum.map fun p =>
          toString (p.1 + 1) ++ ". " ++ p.2.winner ++ " def. " ++ p.2.loser ++ " by " ++
            toString p.2.margin ++ " (" ++ toString p.2.awayScore ++ "-" ++
            toString p.2.homeScore ++ ")\n")
    else "")

/-- The close-game alert section text built by services/canvasService.js. -/
def closeAlertText (data : TournamentData) : String :=
  "🔥 *CLOSE GAME ALERT* 🔥\n" ++
    String.intercalate "\n\n" (data.closeGames.map formatGameForDisplay)

/-- The fixed `updatedBlocks` list that services/canvasService.js builds before
the close-game splice: header, then the four titled sections, then the footer
context block, separated by dividers. -/
def baseBlocksCs (data : TournamentData) : List Block :=
  let currentGamesText :=
    if data.currentGames.length > 0 then
      String.intercalate "\n\n" (data.currentGames.map formatGameForDisplay)
    else "No games currently in progress."
  let recentCompletedGames :=
    (sortStable (fun a b => dateLt b.DateTime a.DateTime) data.completedGames).take 5
  let completedGamesText :=
    if recentCompletedGames.length > 0 then
      String.intercalate "\n\n" (recentCompletedGames.map formatGameForDisplay)
    else "No completed games yet."
  let upcomingGames :=
    (sortStable (fun a b => dateLt a.DateTime b.DateTime) data.upcomingGames).take 5
  let upcomingGamesText :=
    if upcomingGames.length > 0 then
      String.intercalate "\n\n" (upcomingGames.map formatGameForDisplay)
    else "No upcoming games scheduled."
  let statsText :=
    match data.stats with
    | some st => formatStatisticsForDisplayCs st
    | none => "Statistics not available yet."
  let lastUpdated :=
    match data.lastUpdated with
    | some s => toLocaleStringLocal s
    | none => "Unknown"
  [Block.headerB "🏀 NCAA Tournament Tracker 2025 🏀",
   Block.divider,
   Block.headerB "Games In Progress",
   Block.sectionB currentGamesText,
   Block.divider,
   Block.headerB "Recently Completed Games",
   Block.sectionB completedGamesText,
   Block.divider,
   Block.headerB "Upcoming Games",
   Block.sectionB upcomingGamesText,
   Block.divider,
   Block.headerB "Tournament Statistics",
   Block.sectionB statsText,
   Block.divider,
   Block.contextB ("Last updated: " ++ lastUpdated)]

/-- `updateCanvasContent` of services/canvasService.js, the copy index.js
loads: builds `updatedBlocks` from the snapshot, and when `closeGames` is
non-empty splices a close-game alert section plus divider at index 2 (directly
after the main header and its divider).  `now` is the wall clock at invocation;
this copy never reads it (the footer comes from `data.lastUpdated`). -/
def updateCanvasContentCs (data : TournamentData) (now : String) : List Block :=
  let updatedBlocks := baseBlocksCs data
  if data.closeGames.length > 0 then
    updatedBlocks.take 2 ++
      [Block.sectionB (closeAlertText data), Block.divider] ++
      updatedBlocks.drop 2
  else
    updatedBlocks

/-- `updateCanvasContent` of the duplicate copy (unnamed/part_001): no alert
section is ever inserted; instead close games are marked inline inside the
games-in-progress section, and the footer is stamped with the CURRENT wall
clock `new Date().toLocaleString()` (the `now` argument), not with the
snapshot's `lastUpdated`. -/
def updateCanvasContentP1 (data : TournamentData) (now : String) : List Block :=
  let gamesInProgressContent :=
    if data.currentGames.length > 0 then
      if data.closeGames.length > 0 then
        let closeGameIds := data.closeGames.map fun g => g.GameID
        String.intercalate "\n\n" (data.currentGames.map fun g =>
          formatGameForDisplay g ++
            (if closeGameIds.contains g.GameID then " 🔥 CLOSE GAME!" else ""))
      else
        String.intercalate "\n\n" (data.currentGames.map formatGameForDisplay)
    else "No games in progress."
  let completedGamesContent :=
    if data.completedGames.length > 0 then
      String.intercalate "\n\n"
        (((sortStable (fun a b => dateLt b.DateTime a.DateTime) data.completedGames).take 10).map
          formatGameForDisplay)
    else "No completed games."
  let upcomingGamesContent :=
    if data.upcomingGames.length > 0 then
      String.intercalate "\n\n"
        (((sortStable (fun a b => dateLt a.DateTime b.DateTime) data.upcomingGames).take 10).map
          formatGameForDisplay)
    else "No upcoming games."
  let statisticsContent :=
    match data.stats with
    | some st => formatStatisticsForDisplayP1 st
    | none => "Statistics not available."
  let lastUpdatedText := "Last updated: " ++ toLocaleStringLocal now
  [Block.headerB "🏀 NCAA Tournament Tracker 2025 🏀",
   Block.divider,
   Block.headerB "Games In Progress",
   Block.sectionB gamesInProgressContent,
   Block.divider,
   Block.headerB "Recently Completed Games",
   Block.sectionB completedGamesContent,
   Block.divider,
   Block.headerB "Upcoming Games",
   Block.sectionB upcomingGamesContent,
   Block.divider,
   Block.headerB "Tournament Statistics",
   Block.sectionB statisticsContent,
   Block.divider,
   Block.contextB lastUpdatedText]

/-- Where a refresh-cycle invocation of updateTournamentData stands: before it
starts, awaiting the provider fetch, awaiting the canvas publish, or finished.
The two awaits are the cycle's suspension points. -/
inductive CyclePhase where
  | idle
  | fetching
  | publishing
  | finished
  deriving DecidableEq, Repr

/-- Progress of one updateTournamentData invocation through its suspension
points. -/
inductive CycleStep : CyclePhase → CyclePhase → Prop where
  | start : CycleStep CyclePhase.idle CyclePhase.fetching
  | fetched : CycleStep CyclePhase.fetching CyclePhase.publishing
  | published : CycleStep CyclePhase.publishing CyclePhase.finished

/-- Joint state of the two refresh triggers of index.js: the cron-scheduled
cycle (`scheduleUpdates`) and the on-demand "refresh" chat cycle (the
app.message handler).  Both call updateTournamentData directly. -/
structure SyncState where
  scheduled : CyclePhase
  onDemand : CyclePhase
  deriving DecidableEq, Repr

/-- Interleaving of the two triggers.  index.js contains no lock, queue, or
in-flight flag, so either invocation can advance regardless of where the other
one stands; this relation is the faithful model of that absence of
serialization. -/
inductive SyncStep : SyncState → SyncState → Prop where
  | schedStep {p q r : CyclePhase} : CycleStep p q →
      SyncStep ⟨p, r⟩ ⟨q, r⟩
  | demandStep {p q r : CyclePhase} : CycleStep p q →
      SyncStep ⟨r, p⟩ ⟨r, q⟩

/-- Reachability of the trigger interleaving. -/
def SyncReachable : SyncState → SyncState → Prop :=
  Relation.ReflTransGen SyncStep

/-- Either participant of a game record (spec wording for the upset rule). -/
inductive TeamSide where
  | away
  | home
  deriving DecidableEq, Repr

/-- The other participant. -/
def otherSide : TeamSide → TeamSide
  | TeamSide.away => TeamSide.home
  | TeamSide.home => TeamSide.away

/-- The seed of the given participant. -/
def seedOn (g : Game) : TeamSide → Int
  | TeamSide.away => g.AwayTeamSeed
  | TeamSide.home => g.HomeTeamSeed

/-- The score of the given participant. -/
def scoreOn (g : Game) : TeamSide → Int
  | TeamSide.away => g.AwayTeamScore
  | TeamSide.home => g.HomeTeamScore

/-- Spec wording of an upset: the team with the numerically larger seed has the
strictly higher score. -/
def SpecUpset (g : Game) : Prop :=
  ∃ s : TeamSide, seedOn g s > seedOn g (otherSide s) ∧ scoreOn g s > scoreOn g (otherSide s)

/-- Spec wording of the average: sum of both scores over all completed (Final)
records, divided by their count, rounded to one decimal place; exactly 0 when
there is no completed record. -/
def specAvgPointsPerGame (games : List Game) : ℚ :=
  let completed := games.filter fun g => g.Status == "Final"
  if completed.length = 0 then 0
  else ((round (((((completed.map fun g => g.AwayTeamScore + g.HomeTeamScore).sum : ℤ) : ℚ) /
    (completed.length : ℚ)) * 10) : ℤ) : ℚ) / 10

/-- Record a name the first time it is seen. -/
def addFirstSeen (acc : List String) (t : String) : List String :=
  if acc.any fun s => s == t then acc else acc ++ [t]

/-- Spec wording of first-encounter order: the team names in the order they are
first encountered while scanning the completed games, away before home. -/
def encounterOrderOf (games : List Game) : List String :=
  (completedOf games).foldl
    (fun acc g => addFirstSeen (addFirstSeen acc g.AwayTeam) g.HomeTeam) []

/-- All team appearances in completed games (with multiplicity). -/
def teamAppearancesOf (games : List Game) : List String :=
  (completedOf games).foldr (fun g acc => g.AwayTeam :: g.HomeTeam :: acc) []

/-- A completed record with equal scores (the anomaly the spec calls
indeterminate): a 50-50 Final between distinct seeds. -/
def tieFinalGame : Game :=
  { GameID := 2001, Season := 2025, SeasonType := 3, Status := "Final",
    Day := "2025-03-22T00:00:00", DateTime := "2025-03-22T18:00:00",
    AwayTeam := "Gonzaga", HomeTeam := "Baylor",
    AwayTeamID := 110, HomeTeamID := 111,
    AwayTeamSeed := 4, HomeTeamSeed := 5,
    AwayTeamScore := 50, HomeTeamScore := 50,
    TimeRemainingMinutes := some 0, TimeRemainingSeconds := some 0,
    Period := some "2H", IsClosed := true, Round := 1, Tournament := "NCAA" }

/-! Helper lemmas about the stable sort. -/

theorem insertStable_perm (lt : α → α → Bool) (x : α) (l : List α) :
    (insertStable lt x l).Perm (x :: l) := by
  induction l with
  | nil => exact List.Perm.refl _
  | cons y ys ih =>
    by_cases h : lt x y = true
    · simp [insertStable, h]
    · simp only [insertStable, h, if_false, Bool.false_eq_true, ite_false]
      exact (ih.cons y).trans (List.Perm.swap x y ys)

theorem mem_insertStable (lt : α → α → Bool) (x a : α) (l : List α) :
    a ∈ insertStable lt x l ↔ a = x ∨ a ∈ l := by
  rw [(insertStable_perm lt x l).mem_iff, List.mem_cons]

theorem foldl_insertStable_perm (lt : α → α → Bool) (l acc : List α) :
    (l.foldl (fun acc x => insertStable lt x acc) acc).Perm (acc ++ l) := by
  induction l generalizing acc with
  | nil => simp
  | cons x xs ih =>
    simp only [List.foldl_cons]
    refine (ih (insertStable lt x acc)).trans ?_
    refine (List.Perm.append_right xs (insertStable_perm lt x acc)).trans ?_
    have hmid : (acc ++ x :: xs).Perm (x :: (acc ++ xs)) := List.perm_middle
    simpa using hmid.symm

theorem sortStable_perm (lt : α → α → Bool) (l : List α) :
    (sortStable lt l).Perm l := by
  simpa [sortStable] using foldl_insertStable_perm lt l []

theorem pairwise_insertStable (lt : α → α → Bool)
    (hA : ∀ a b, lt a b = true → lt b a = false)
    (hT : ∀ x y w, lt x y = true → lt w y = false → lt w x = false)
    (x : α) (l : List α)
    (hl : l.Pairwise fun a b => lt b a = false) :
    (insertStable lt x l).Pairwise fun a b => lt b a = false := by
  induction l with
  | nil => simp [insertStable]
  | cons y ys ih =>
    rcases List.pairwise_cons.mp hl with ⟨hy, hys⟩
    by_cases h : lt x y = true
    · simp only [insertStable, h, if_true, ite_true]
      refine List.pairwise_cons.mpr ⟨?_, hl⟩
      intro z hz
      rcases List.mem_cons.mp hz with rfl | hz'
      · exact hA x z h
      · exact hT x y z h (hy z hz')
    · simp only [insertStable, h, if_false, Bool.false_eq_true, ite_false]
      refine List.pairwise_cons.mpr ⟨?_, ih hys⟩
      intro z hz
      rcases (mem_insertStable lt x z ys).mp hz with rfl | hz'
      · rw [Bool.not_eq_true] at h
        exact h
      · exact hy z hz'

theorem pairwise_foldl_insertStable (lt : α → α → Bool)
    (hA : ∀ a b, lt a b = true → lt b a = false)
    (hT : ∀ x y w, lt x y = true → lt w y = false → lt w x = false)
    (l acc : List α)
    (hacc : acc.Pairwise fun a b => lt b a = false) :
    (l.foldl (fun acc x => insertStable lt x acc) acc).Pairwise
      fun a b => lt b a = false := by
  induction l generalizing acc with
  | nil => simpa using hacc
  | cons x xs ih =>
    simp only [List.foldl_cons]
    exact ih (insertStable lt x acc) (pairwise_insertStable lt hA hT x acc hacc)

theorem pairwise_sortStable (lt : α → α → Bool)
    (hA : ∀ a b, lt a b = true → lt b a = false)
    (hT : ∀ x y w, lt x y = true → lt w y = false → lt w x = false)
    (l : List α) :
    (sortStable lt l).Pairwise fun a b => lt b a = false :=
  pairwise_foldl_insertStable lt hA hT l [] (List.Pairwise.nil)

theorem filter_insertStable_neg (lt : α → α → Bool) (p : α → Bool) (x : α)
    (hx : p x = false) (l : List α) :
    (insertStable lt x l).filter p = l.filter p := by
  induction l with
  | nil => simp [insertStable, hx]
  | cons y ys ih =>
    by_cases h : lt x y = true
    · simp [insertStable, h, List.filter_cons, hx]
    · simp only [insertStable, h, if_false, Bool.false_eq_true, ite_false]
      rw [List.filter_cons, List.filter_cons, ih]

theorem filter_insertStable_pos (lt : α → α → Bool) (p : α → Bool) (x : α)
    (hT2 : ∀ x y w, lt x y = true → lt w y = false → lt x w = true)
    (hpf : ∀ y, lt x y = true → p y = false)
    (hx : p x = true) (l : List α)
    (hl : l.Pairwise fun a b => lt b a = false) :
    (insertStable lt x l).filter p = l.filter p ++ [x] := by
  induction l with
  | nil => simp [insertStable, hx]
  | cons y ys ih =>
    rcases List.pairwise_cons.mp hl with ⟨hy, hys⟩
    by_cases h : lt x y = true
    · have hpy : p y = false := hpf y h
      have hnil : ys.filter p = [] := by
        rw [List.filter_eq_nil_iff]
        intro z hz
        simp [hpf z (hT2 x y z h (hy z hz))]
      simp [insertStable, h, List.filter_cons, hx, hpy, hnil]
    · simp only [insertStable, h, if_false, Bool.false_eq_true, ite_false]
      rw [List.filter_cons, List.filter_cons, ih hys]
      cases hpy : p y <;> simp

theorem filter_foldl_insertStable (lt : α → α → Bool) (p : α → Bool)
    (hA : ∀ a b, lt a b = true → lt b a = false)
    (hT : ∀ x y w, lt x y = true → lt w y = false → lt w x = false)
    (hT2 : ∀ x y w, lt x y = true → lt w y = false → lt x w = true)
    (hp : ∀ a b, p a = true → lt a b = true → p b = false)
    (l acc : List α)
    (hacc : acc.Pairwise fun a b => lt b a = false) :
    (l.foldl (fun acc x => insertStable lt x acc) acc).filter p =
      acc.filter p ++ l.filter p := by
  induction l generalizing acc with
  | nil => simp
  | cons x xs ih =>
    simp only [List.foldl_cons]
    rw [ih (insertStable lt x acc) (pairwise_insertStable lt hA hT x acc hacc)]
    cases hx : p x
    · rw [filter_insertStable_neg lt p x hx acc]
      simp [List.filter_cons, hx]
    · rw [filter_insertStable_pos lt p x hT2 (fun y hy => hp x y hx hy) hx acc hacc]
      simp [List.filter_cons, hx]

theorem filter_sortStable (lt : α → α → Bool) (p : α → Bool)
    (hA : ∀ a b, lt a b = true → lt b a = false)
    (hT : ∀ x y w, lt x y = true → lt w y = false → lt w x = false)
    (hT2 : ∀ x y w, lt x y = true → lt w y = false → lt x w = true)
    (hp : ∀ a b, p a = true → lt a b = true → p b = false)
    (l : List α) :
    (sortStable lt l).filter p = l.filter p := by
  simpa [sortStable] using
    filter_foldl_insertStable lt p hA hT hT2 hp l [] (List.Pairwise.nil)

/-! Helper lemmas about the rounding encoding and the statistics pipeline. -/

/-- The integer-division encoding of `Math.round(num / den)` computes exactly
Mathlib's `round` of the rational num/den. -/
theorem mathRound_eq_round (num : Int) (den : Nat) :
    mathRound num den = round ((num : ℚ) / (den : ℚ)) := by
  rcases Nat.eq_zero_or_pos den with hd | hd
  · subst hd
    simp [mathRound]
  · have h0 : ((den : ℚ)) ≠ 0 := Nat.cast_ne_zero.mpr hd.ne'
    rw [round_eq]
    have hrw : (num : ℚ) / (den : ℚ) + 1 / 2 =
        ((2 * num + (den : Int) : ℤ) : ℚ) / ((2 * den : ℕ) : ℚ) := by
      push_cast
      field_simp
      ring
    rw [hrw, Rat.floor_intCast_div_natCast]
    unfold mathRound
    congr 1

/-- The `reduce` accumulation of total points equals the sum of per-game score
sums. -/
theorem totalPointsOf_eq (games : List Game) :
    totalPointsOf games =
      ((completedOf games).map fun g => g.AwayTeamScore + g.HomeTeamScore).sum := by
  unfold totalPointsOf
  have aux : ∀ (l : List Game) (init : Int),
      l.foldl (fun sum g => sum + g.AwayTeamScore + g.HomeTeamScore) init =
        init + (l.map fun g => g.AwayTeamScore + g.HomeTeamScore).sum := by
    intro l
    induction l with
    | nil => intro init; simp
    | cons g gs ih =>
      intro init
      simp only [List.foldl_cons, List.map_cons, List.sum_cons]
      rw [ih]
      ring
  simpa using aux (completedOf games) 0

/-- Membership in the upset filter, unfolded. -/
theorem mem_upsetsOf (games : List Game) (g : Game) :
    g ∈ upsetsOf games ↔ g ∈ games ∧ g.Status = "Final" ∧
      ((g.AwayTeamSeed > g.HomeTeamSeed ∧ g.AwayTeamScore > g.HomeTeamScore) ∨
       (g.HomeTeamSeed > g.AwayTeamSeed ∧ g.HomeTeamScore > g.AwayTeamScore)) := by
  unfold upsetsOf completedOf
  simp only [List.mem_filter, decide_eq_true_eq, beq_iff_eq]
  tauto

/-! The claims. -/

/-- C1.  For every input batch, `avgPointsPerGame` (a one-decimal JS number,
stored here in exact tenths, hence the division by 10) equals the sum of both
teams' scores over all records with status Final, divided by the count of such
records and rounded to one decimal place, and is exactly 0 when the batch has
no Final record — `specAvgPointsPerGame` is that spec formula, written with
Mathlib's rational `round`. -/
theorem avgPointsPerGame_matches_spec (games : List Game) :
    (((calculateTournamentStats games).avgPointsPerGame : ℤ) : ℚ) / 10 =
      specAvgPointsPerGame games := by
  unfold calculateTournamentStats specAvgPointsPerGame
  have hc : (games.filter fun g => g.Status == "Final") = completedOf games := rfl
  rw [hc]
  by_cases h : (completedOf games).length = 0
  · simp [h]
  · have hb : ((completedOf games).length == 0) = false := by
      simpa using h
    rw [if_neg h]
    simp only [hb, Bool.false_eq_true, if_false, ite_false]
    rw [mathRound_eq_round, totalPointsOf_eq]
    have harg : (((10 * ((completedOf games).map fun g =>
          g.AwayTeamScore + g.HomeTeamScore).sum : ℤ) : ℚ)) /
          (((completedOf games).length : ℕ) : ℚ) =
        ((((completedOf games).map fun g =>
          g.AwayTeamScore + g.HomeTeamScore).sum : ℤ) : ℚ) /
          (((completedOf games).length : ℕ) : ℚ) * 10 := by
      push_cast
      ring
    rw [harg]

/-- C2.  A record is in the upset subset iff it is in the batch, has status
Final, and the participant with the numerically larger seed has the strictly
higher score (`SpecUpset`); consequently a Final record with equal seeds is
never in the subset, since `SpecUpset` forces a strict seed inequality. -/
theorem upset_membership_spec (games : List Game) (g : Game) :
    (g ∈ upsetsOf games ↔ g ∈ games ∧ g.Status = "Final" ∧ SpecUpset g) ∧
    (g.AwayTeamSeed = g.HomeTeamSeed → g ∉ upsetsOf games) := by
  have hiff : g ∈ upsetsOf games ↔ g ∈ games ∧ g.Status = "Final" ∧ SpecUpset g := by
    rw [mem_upsetsOf]
    refine and_congr_right fun _ => and_congr_right fun _ => ?_
    constructor
    · rintro (⟨h1, h2⟩ | ⟨h1, h2⟩)
      · exact ⟨TeamSide.away, h1, h2⟩
      · exact ⟨TeamSide.home, h1, h2⟩
    · rintro ⟨s, h1, h2⟩
      cases s
      · exact Or.inl ⟨h1, h2⟩
      · exact Or.inr ⟨h1, h2⟩
  refine ⟨hiff, fun heq hmem => ?_⟩
  rcases (hiff.mp hmem).2.2 with ⟨s, h1, h2⟩
  cases s <;> simp [seedOn, otherSide] at h1 <;> omega

/-- Witness for C2: the Duquesne(11)-at-BYU(6) 71-69 record of the mock batch
is a member of the upset subset. -/
theorem upset_membership_witness :
    getMockTournamentData.getD 1 tieFinalGame ∈ upsetsOf getMockTournamentData :=
  (upset_membership_spec getMockTournamentData _).1.mpr
    ⟨by decide, by decide, ⟨TeamSide.away, by decide, by decide⟩⟩

/-- C6.  `closestGames` is the 5-element prefix of the stable ascending sort by
margin of the margin entries of the completed games: its length is at most 5,
its margins ascend, the sorted list is a permutation of the entry list that
leaves the entries of any fixed margin in their original encounter order, and
every entry carries margin = |awayScore - homeScore|, both scores, and the
higher-scoring team as winner. -/
theorem closestGames_spec (games : List Game) :
    (calculateTournamentStats games).closestGames = (sortedMarginsOf games).take 5 ∧
    (calculateTournamentStats games).closestGames.length ≤ 5 ∧
    (calculateTournamentStats games).closestGames.Pairwise
      (fun a b => a.margin ≤ b.margin) ∧
    (sortedMarginsOf games).Perm (marginOfVictoryOf games) ∧
    (∀ m : Int, (sortedMarginsOf games).filter (fun e => e.margin == m) =
      (marginOfVictoryOf games).filter (fun e => e.margin == m)) ∧
    marginOfVictoryOf games =
      (games.filter fun g => g.Status == "Final").map marginEntryOf ∧
    (∀ g : Game,
      (marginEntryOf g).margin = |g.AwayTeamScore - g.HomeTeamScore| ∧
      (marginEntryOf g).awayScore = g.AwayTeamScore ∧
      (marginEntryOf g).homeScore = g.HomeTeamScore ∧
      (g.HomeTeamScore < g.AwayTeamScore →
        (marginEntryOf g).winner = g.AwayTeam ∧ (marginEntryOf g).loser = g.HomeTeam) ∧
      (g.AwayTeamScore < g.HomeTeamScore →
        (marginEntryOf g).winner = g.HomeTeam ∧ (marginEntryOf g).loser = g.AwayTeam)) := by
  have hA : ∀ a b : MarginEntry,
      decide (a.margin < b.margin) = true → decide (b.margin < a.margin) = false := by
    intro a b h
    simp only [decide_eq_true_eq] at h
    simp only [decide_eq_false_iff_not]
    omega
  have hT : ∀ x y w : MarginEntry, decide (x.margin < y.margin) = true →
      decide (w.margin < y.margin) = false → decide (w.margin < x.margin) = false := by
    intro x y w h1 h2
    simp only [decide_eq_true_eq] at h1
    simp only [decide_eq_false_iff_not] at h2 ⊢
    omega
  have hT2 : ∀ x y w : MarginEntry, decide (x.margin < y.margin) = true →
      decide (w.margin < y.margin) = false → decide (x.margin < w.margin) = true := by
    intro x y w h1 h2
    simp only [decide_eq_true_eq] at h1 ⊢
    simp only [decide_eq_false_iff_not] at h2
    omega
  refine ⟨rfl, ?_, ?_, ?_, ?_, rfl, ?_⟩
  · show ((sortedMarginsOf games).take 5).length ≤ 5
    simp [List.length_take]
  · show ((sortedMarginsOf games).take 5).Pairwise fun a b => a.margin ≤ b.margin
    have hp := pairwise_sortStable (fun a b => decide (a.margin < b.margin)) hA hT
      (marginOfVictoryOf games)
    have hp2 : (sortedMarginsOf games).Pairwise fun a b => a.margin ≤ b.margin := by
      unfold sortedMarginsOf
      exact hp.imp fun h => le_of_not_lt (by simpa using h)
    exact hp2.sublist (List.take_sublist 5 _)
  · exact sortStable_perm _ _
  · intro m
    unfold sortedMarginsOf
    refine filter_sortStable _ _ hA hT hT2 ?_ _
    intro a b hpa hlt
    simp only [beq_iff_eq] at hpa
    simp only [decide_eq_true_eq] at hlt
    simp only [beq_eq_false_iff_ne, ne_eq]
    omega
  · intro g
    refine ⟨?_, rfl, rfl, ?_, ?_⟩
    · show ((g.AwayTeamScore - g.HomeTeamScore).natAbs : Int) = _
      rw [Int.abs_eq_natAbs]
    · intro h
      constructor
      · show (if g.AwayTeamScore > g.HomeTeamScore then g.AwayTeam else g.HomeTeam) = _
        rw [if_pos h]
      · show (if g.AwayTeamScore > g.HomeTeamScore then g.HomeTeam else g.AwayTeam) = _
        rw [if_pos h]
    · intro h
      have hn : ¬ g.AwayTeamScore > g.HomeTeamScore := by omega
      constructor
      · show (if g.AwayTeamScore > g.HomeTeamScore then g.AwayTeam else g.HomeTeam) = _
        rw [if_neg hn]
      · show (if g.AwayTeamScore > g.HomeTeamScore then g.HomeTeam else g.AwayTeam) = _
        rw [if_neg hn]

/-- Witness for C6, at the mock batch: Colorado won the 57-63 Virginia game, so
the winner conditional of `closestGames_spec` applies there with its hypothesis
discharged, and the 2-point Duquesne-BYU game sorts before the 6-point one. -/
theorem closestGames_witness :
    (marginEntryOf (getMockTournamentData.getD 0 tieFinalGame)).winner = "Colorado" ∧
    ((calculateTournamentStats getMockTournamentData).closestGames.map
      MarginEntry.margin) = [2, 6] := by
  constructor
  · have h := ((closestGames_spec getMockTournamentData).2.2.2.2.2.2
      (getMockTournamentData.getD 0 tieFinalGame)).2.2.2.2 (by decide)
    exact h.1.trans (by decide)
  · rw [(closestGames_spec getMockTournamentData).1]
    decide

/-- Upserting a team's points leaves the key sequence as a first-seen insert of
the name. -/
theorem map_team_addTeamPoints (acc : List TeamScore) (name : String) (score : Int) :
    (addTeamPoints acc name score).map TeamScore.team =
      addFirstSeen (acc.map TeamScore.team) name := by
  unfold addTeamPoints addFirstSeen
  have hany : ((acc.map TeamScore.team).any fun s => s == name) =
      (acc.any fun e => e.team == name) := by
    induction acc with
    | nil => rfl
    | cons e es ih => simp only [List.map_cons, List.any_cons, ih]
  rw [hany]
  by_cases h : (acc.any fun e => e.team == name) = true
  · simp only [h, if_true, ite_true]
    rw [List.map_map]
    apply List.map_congr_left
    intro e _
    by_cases he : (e.team == name) = true <;> simp [he, Function.comp]
  · simp only [h, Bool.false_eq_true, if_false, ite_false]
    simp

/-- Every accumulator entry records at least one game. -/
theorem addTeamPoints_games_pos (acc : List TeamScore) (name : String) (score : Int)
    (h : ∀ e ∈ acc, 0 < e.games) :
    ∀ e ∈ addTeamPoints acc name score, 0 < e.games := by
  unfold addTeamPoints
  by_cases hc : (acc.any fun e => e.team == name) = true
  · simp only [hc, if_true, ite_true]
    intro e he
    rcases List.mem_map.mp he with ⟨e', he', rfl⟩
    by_cases ht : (e'.team == name) = true
    · simp only [ht, if_true, ite_true]
      exact Nat.succ_pos _
    · simp only [ht, Bool.false_eq_true, if_false, ite_false]
      exact h e' he'
  · simp only [hc, Bool.false_eq_true, if_false, ite_false]
    intro e he
    rcases List.mem_append.mp he with he' | he'
    · exact h e he'
    · rcases List.mem_singleton.mp he' with rfl
      exact Nat.one_pos

/-- Every `teamScores` entry records at least one game (both guards downstream
of the accumulation are dead). -/
theorem teamScoresOf_games_pos (games : List Game) :
    ∀ e ∈ teamScoresOf games, 0 < e.games := by
  unfold teamScoresOf
  have aux : ∀ (l : List Game) (acc : List TeamScore), (∀ e ∈ acc, 0 < e.games) →
      ∀ e ∈ l.foldl (fun acc g => addTeamPoints
          (addTeamPoints acc g.AwayTeam g.AwayTeamScore) g.HomeTeam g.HomeTeamScore) acc,
        0 < e.games := by
    intro l
    induction l with
    | nil => intro acc hacc; simpa using hacc
    | cons g gs ih =>
      intro acc hacc
      simp only [List.foldl_cons]
      exact ih _ (addTeamPoints_games_pos _ _ _ (addTeamPoints_games_pos _ _ _ hacc))
  exact aux (completedOf games) [] (by simp)

/-- The key sequence of the accumulated team map is the first-encounter order
of the teams of the completed games. -/
theorem map_team_teamScoresOf (games : List Game) :
    (teamScoresOf games).map TeamScore.team = encounterOrderOf games := by
  unfold teamScoresOf encounterOrderOf
  have aux : ∀ (l : List Game) (acc : List TeamScore),
      (l.foldl (fun acc g => addTeamPoints
          (addTeamPoints acc g.AwayTeam g.AwayTeamScore) g.HomeTeam g.HomeTeamScore) acc).map
        TeamScore.team =
      l.foldl (fun acc g => addFirstSeen (addFirstSeen acc g.AwayTeam) g.HomeTeam)
        (acc.map TeamScore.team) := by
    intro l
    induction l with
    | nil => intro acc; rfl
    | cons g gs ih =>
      intro acc
      simp only [List.foldl_cons]
      rw [ih, map_team_addTeamPoints, map_team_addTeamPoints]
  simpa using aux (completedOf games) []

/-- First-seen insertion preserves distinctness of names. -/
theorem nodup_addFirstSeen (acc : List String) (t : String) (h : acc.Nodup) :
    (addFirstSeen acc t).Nodup := by
  unfold addFirstSeen
  by_cases hc : (acc.any fun s => s == t) = true
  · simpa [hc] using h
  · simp only [hc, Bool.false_eq_true, if_false, ite_false]
    have hnot : t ∉ acc := by
      intro hmem
      exact absurd (List.any_eq_true.mpr ⟨t, hmem, by simp⟩) hc
    simp [List.nodup_append, h, hnot]

/-- The first-encounter order lists each team once. -/
theorem nodup_encounterOrderOf (games : List Game) :
    (encounterOrderOf games).Nodup := by
  unfold encounterOrderOf
  have aux : ∀ (l : List Game) (acc : List String), acc.Nodup →
      (l.foldl (fun acc g => addFirstSeen (addFirstSeen acc g.AwayTeam) g.HomeTeam) acc).Nodup := by
    intro l
    induction l with
    | nil => intro acc hacc; simpa using hacc
    | cons g gs ih =>
      intro acc hacc
      simp only [List.foldl_cons]
      exact ih _ (nodup_addFirstSeen _ _ (nodup_addFirstSeen _ _ hacc))
  exact aux (completedOf games) [] (by simp)

/-- Membership in a first-seen insert. -/
theorem mem_addFirstSeen (acc : List String) (t a : String) :
    a ∈ addFirstSeen acc t ↔ a ∈ acc ∨ a = t := by
  unfold addFirstSeen
  by_cases hc : (acc.any fun s => s == t) = true
  · have hmem : t ∈ acc := by
      rcases List.any_eq_true.mp hc with ⟨s, hs, hst⟩
      rcases eq_of_beq hst with rfl
      exact hs
    simp only [hc, if_true, ite_true]
    constructor
    · exact Or.inl
    · rintro (h | rfl)
      · exact h
      · exact hmem
  · simp [hc]

/-- The first-encounter order contains exactly the teams appearing in some
completed game. -/
theorem mem_encounterOrderOf (games : List Game) (t : String) :
    t ∈ encounterOrderOf games ↔ t ∈ teamAppearancesOf games := by
  unfold encounterOrderOf teamAppearancesOf
  have aux : ∀ (l : List Game) (acc : List String),
      (t ∈ l.foldl (fun acc g => addFirstSeen (addFirstSeen acc g.AwayTeam) g.HomeTeam) acc ↔
        t ∈ acc ∨ t ∈ l.foldr (fun g acc => g.AwayTeam :: g.HomeTeam :: acc) []) := by
    intro l
    induction l with
    | nil => intro acc; simp
    | cons g gs ih =>
      intro acc
      simp only [List.foldl_cons, List.foldr_cons]
      rw [ih, mem_addFirstSeen, mem_addFirstSeen]
      simp only [List.mem_cons]
      tauto
  simpa using aux (completedOf games) []

/-- Both guards on the way from the accumulator to `teamsWithAvg` are dead:
the list is exactly the map of the spec's average formula over the
accumulator. -/
theorem teamsWithAvgOf_eq (games : List Game) :
    teamsWithAvgOf games = (teamScoresOf games).map (fun e =>
      { team := e.team, avgPoints := mathRound (10 * e.points) e.games,
        totalPoints := e.points, games := e.games : TeamEntry }) := by
  unfold teamsWithAvgOf
  have hpos := teamScoresOf_games_pos games
  have h1 : (((teamScoresOf games).map fun e =>
      { team := e.team,
        avgPoints := if e.games == 0 then 0 else mathRound (10 * e.points) e.games,
        totalPoints := e.points, games := e.games : TeamEntry }).filter
        fun t => decide (t.games > 0)) =
      ((teamScoresOf games).map fun e =>
      { team := e.team,
        avgPoints := if e.games == 0 then 0 else mathRound (10 * e.points) e.games,
        totalPoints := e.points, games := e.games : TeamEntry }) := by
    rw [List.filter_eq_self]
    intro a ha
    rcases List.mem_map.mp ha with ⟨e, he, rfl⟩
    have := hpos e he
    simp only [decide_eq_true_eq]
    omega
  rw [h1]
  apply List.map_congr_left
  intro e he
  have := hpos e he
  have hz : (e.games == 0) = false := by
    simp only [beq_eq_false_iff_ne, ne_eq]
    omega
  simp [hz]

/-- C7.  `topScoringTeams` is the 5-element prefix of the stable descending
sort by (rounded) average of the per-team aggregates: its length is at most 5,
its averages descend, the sorted list is a permutation of the aggregate list
that leaves entries of any fixed average value in their original order, the
aggregate list has one entry per team in first-encounter order (exactly the
teams appearing in a completed game, each once), and each aggregate's average
is the team's total points over games played rounded to one decimal
(`avgPoints` is stored in tenths; the final conjunct ties `mathRound` of
tenths to the rational rounding of the spec formula). -/
theorem topScoringTeams_spec (games : List Game) :
    (calculateTournamentStats games).topScoringTeams = (sortedTeamsOf games).take 5 ∧
    (calculateTournamentStats games).topScoringTeams.length ≤ 5 ∧
    (calculateTournamentStats games).topScoringTeams.Pairwise
      (fun a b => b.avgPoints ≤ a.avgPoints) ∧
    (sortedTeamsOf games).Perm (teamsWithAvgOf games) ∧
    (∀ v : Int, (sortedTeamsOf games).filter (fun e => e.avgPoints == v) =
      (teamsWithAvgOf games).filter (fun e => e.avgPoints == v)) ∧
    (teamsWithAvgOf games).map TeamEntry.team = encounterOrderOf games ∧
    ((teamsWithAvgOf games).map TeamEntry.team).Nodup ∧
    (∀ t : String, t ∈ (teamsWithAvgOf games).map TeamEntry.team ↔
      t ∈ teamAppearancesOf games) ∧
    teamsWithAvgOf games = (teamScoresOf games).map (fun e =>
      { team := e.team, avgPoints := mathRound (10 * e.points) e.games,
        totalPoints := e.points, games := e.games : TeamEntry }) ∧
    (∀ pts : Int, ∀ n : Nat, ((mathRound (10 * pts) n : ℤ) : ℚ) =
      round (((pts : ℚ) / (n : ℚ)) * 10)) := by
  have hA : ∀ a b : TeamEntry,
      decide (b.avgPoints < a.avgPoints) = true →
        decide (a.avgPoints < b.avgPoints) = false := by
    intro a b h
    simp only [decide_eq_true_eq] at h
    simp only [decide_eq_false_iff_not]
    omega
  have hT : ∀ x y w : TeamEntry, decide (y.avgPoints < x.avgPoints) = true →
      decide (y.avgPoints < w.avgPoints) = false →
        decide (x.avgPoints < w.avgPoints) = false := by
    intro x y w h1 h2
    simp only [decide_eq_true_eq] at h1
    simp only [decide_eq_false_iff_not] at h2 ⊢
    omega
  have hT2 : ∀ x y w : TeamEntry, decide (y.avgPoints < x.avgPoints) = true →
      decide (y.avgPoints < w.avgPoints) = false →
        decide (w.avgPoints < x.avgPoints) = true := by
    intro x y w h1 h2
    simp only [decide_eq_true_eq] at h1 ⊢
    simp only [decide_eq_false_iff_not] at h2
    omega
  have hmapteam := map_team_teamScoresOf games
  refine ⟨rfl, ?_, ?_, ?_, ?_, ?_, ?_, ?_, teamsWithAvgOf_eq games, ?_⟩
  · show ((sortedTeamsOf games).take 5).length ≤ 5
    simp [List.length_take]
  · show ((sortedTeamsOf games).take 5).Pairwise fun a b => b.avgPoints ≤ a.avgPoints
    have hp := pairwise_sortStable (fun a b => decide (b.avgPoints < a.avgPoints)) hA hT
      (teamsWithAvgOf games)
    have hp2 : (sortedTeamsOf games).Pairwise fun a b => b.avgPoints ≤ a.avgPoints := by
      unfold sortedTeamsOf
      exact hp.imp fun h => le_of_not_lt (by simpa using h)
    exact hp2.sublist (List.take_sublist 5 _)
  · exact sortStable_perm _ _
  · intro v
    unfold sortedTeamsOf
    refine filter_sortStable _ _ hA hT hT2 ?_ _
    intro a b hpa hlt
    simp only [beq_iff_eq] at hpa
    simp only [decide_eq_true_eq] at hlt
    simp only [beq_eq_false_iff_ne, ne_eq]
    omega
  · rw [teamsWithAvgOf_eq, List.map_map]
    rw [show (TeamEntry.team ∘ fun e =>
      { team := e.team, avgPoints := mathRound (10 * e.points) e.games,
        totalPoints := e.points, games := e.games : TeamEntry }) = TeamScore.team from rfl]
    exact hmapteam
  · rw [teamsWithAvgOf_eq, List.map_map]
    rw [show (TeamEntry.team ∘ fun e =>
      { team := e.team, avgPoints := mathRound (10 * e.points) e.games,
        totalPoints := e.points, games := e.games : TeamEntry }) = TeamScore.team from rfl]
    rw [hmapteam]
    exact nodup_encounterOrderOf games
  · intro t
    rw [teamsWithAvgOf_eq, List.map_map]
    rw [show (TeamEntry.team ∘ fun e =>
      { team := e.team, avgPoints := mathRound (10 * e.points) e.games,
        totalPoints := e.points, games := e.games : TeamEntry }) = TeamScore.team from rfl]
    rw [hmapteam]
    exact mem_encounterOrderOf games t
  · intro pts n
    rw [mathRound_eq_round]
    congr 1
    push_cast
    ring

/-- Witness for C7, at the mock batch: the four teams of the two completed
games in descending order of average, which here ties neither entry. -/
theorem topScoringTeams_witness :
    ((calculateTournamentStats getMockTournamentData).topScoringTeams.map
      TeamEntry.team) = ["Duquesne", "BYU", "Colorado", "Virginia"] := by
  rw [(topScoringTeams_spec getMockTournamentData).1]
  decide

/-- C3 counterexample.  A refresh cycle whose publish FAILS still replaces the
previously committed snapshot: with a committed empty-batch snapshot as `prev`,
a cycle that fetches the mock batch and fails its publish leaves the
process-wide store equal to the NEW snapshot, not to `prev` — so queries after
the failed publish report the new data, contradicting the claim that the prior
snapshot is retained. -/
theorem publishFailure_counterexample :
    (updateTournamentData (buildTournamentData [] "2025-03-20T00:00:00")
        getMockTournamentData false "2025-03-21T12:00:00").1 ≠
      buildTournamentData [] "2025-03-20T00:00:00" ∧
    (updateTournamentData (buildTournamentData [] "2025-03-20T00:00:00")
        getMockTournamentData false "2025-03-21T12:00:00").1 =
      buildTournamentData getMockTournamentData "2025-03-21T12:00:00" := by
  constructor
  · decide
  · rfl

/-- C3 amended.  updateTournamentData assigns the newly built snapshot to the
module-level store BEFORE awaiting the publish, and a publish failure is only
caught and logged, so the committed snapshot after the cycle is the new one
regardless of the publish outcome; the previous snapshot is never restored. -/
theorem publish_outcome_irrelevant_to_commit (prev : TournamentData)
    (fetched : List Game) (publishOk : Bool) (now : String) :
    (updateTournamentData prev fetched publishOk now).1 =
      buildTournamentData fetched now := by
  cases publishOk <;> rfl

/-- C4 counterexample.  The duplicate renderer copy (unnamed/part_001) stamps
its footer with the wall clock at invocation time: rendering the identical
snapshot at two different times yields different section sequences, so
rendering is not a pure function of the snapshot for that cited copy. -/
theorem render_time_dependent_counterexample :
    updateCanvasContentP1 (buildTournamentData [] "2025-03-20T00:00:00")
        "3/21/2025, 10:00:00 AM" ≠
      updateCanvasContentP1 (buildTournamentData [] "2025-03-20T00:00:00")
        "3/21/2025, 11:00:00 AM" := by
  decide

/-- C4 amended.  The services/canvasService.js copy — the one index.js loads —
is a pure function of the snapshot: its output, footer included, is identical
for any two invocation times; and even the part_001 copy is deterministic in
everything except its final footer block. -/
theorem render_deterministic_amended (data : TournamentData) (t1 t2 : String) :
    updateCanvasContentCs data t1 = updateCanvasContentCs data t2 ∧
    (updateCanvasContentP1 data t1).dropLast = (updateCanvasContentP1 data t2).dropLast :=
  ⟨rfl, rfl⟩

/-- C5 counterexample.  A Final record with equal scores (50-50) is excluded
from the upset subset but NOT from the statistics computation: with such a
record as the whole batch, the average is 100 points (1000 tenths), the record
appears in `closestGames` (margin 0), and both its teams get aggregate
entries — the claim's required exclusion from avgPointsPerGame, per-team
aggregates and closestGames does not happen. -/
theorem tieFinal_counted_counterexample :
    (calculateTournamentStats [tieFinalGame]).upsets = 0 ∧
    (calculateTournamentStats [tieFinalGame]).completedGames = 1 ∧
    (calculateTournamentStats [tieFinalGame]).avgPointsPerGame = 1000 ∧
    (calculateTournamentStats [tieFinalGame]).closestGames.length = 1 ∧
    (calculateTournamentStats [tieFinalGame]).topScoringTeams.length = 2 := by
  decide

/-- C5 amended.  A Final record with equal scores is treated as indeterminate
only for the upset subset (it never satisfies the strict score inequalities of
the upset filter) and the computation is total (no crash), but the record stays
in the completed subset — and hence is counted in avgPointsPerGame and the
per-team aggregates — and its margin entry stays in the closest-game input. -/
theorem tieFinal_excluded_from_upsets_only (games : List Game) (g : Game)
    (hg : g ∈ games) (hst : g.Status = "Final")
    (htie : g.AwayTeamScore = g.HomeTeamScore) :
    g ∉ upsetsOf games ∧ g ∈ completedOf games ∧
      marginEntryOf g ∈ marginOfVictoryOf games := by
  have hcomp : g ∈ completedOf games := by
    unfold completedOf
    simp [List.mem_filter, hg, hst]
  refine ⟨?_, hcomp, ?_⟩
  · intro hmem
    rcases (mem_upsetsOf games g).mp hmem with ⟨-, -, (⟨-, h2⟩ | ⟨-, h2⟩)⟩ <;> omega
  · exact List.mem_map_of_mem marginEntryOf hcomp

/-- Witness for C5's amended statement, at the singleton tie batch. -/
theorem tieFinal_witness :
    tieFinalGame ∉ upsetsOf [tieFinalGame] ∧
    tieFinalGame ∈ completedOf [tieFinalGame] ∧
    marginEntryOf tieFinalGame ∈ marginOfVictoryOf [tieFinalGame] :=
  tieFinal_excluded_from_upsets_only [tieFinalGame] tieFinalGame
    (List.mem_singleton.mpr rfl) rfl rfl

/-- C8 counterexample.  index.js has no lock or queue: the cron trigger and the
on-demand "refresh" trigger both call updateTournamentData directly, so the
interleaving in which the scheduled cycle reaches its publish await and the
on-demand cycle then also reaches its publish await is reachable — two
publishes concurrently in flight, contradicting the claim. -/
theorem concurrent_publish_counterexample :
    SyncReachable ⟨CyclePhase.idle, CyclePhase.idle⟩
      ⟨CyclePhase.publishing, CyclePhase.publishing⟩ :=
  ((((Relation.ReflTransGen.refl).tail
      (SyncStep.schedStep CycleStep.start)).tail
      (SyncStep.schedStep CycleStep.fetched)).tail
      (SyncStep.demandStep CycleStep.start)).tail
      (SyncStep.demandStep CycleStep.fetched)

/-- C8 amended.  The code does not serialize refresh cycles: a scheduled
trigger and an on-demand refresh can be in flight simultaneously, and in
particular a state where both cycles' publish calls are concurrently in flight
is reachable from the idle state; nothing coalesces or queues the second
request. -/
theorem no_serialization_amended :
    ∃ s : SyncState, SyncReachable ⟨CyclePhase.idle, CyclePhase.idle⟩ s ∧
      s.scheduled = CyclePhase.publishing ∧ s.onDemand = CyclePhase.publishing :=
  ⟨⟨CyclePhase.publishing, CyclePhase.publishing⟩,
    ((((Relation.ReflTransGen.refl).tail
        (SyncStep.schedStep CycleStep.start)).tail
        (SyncStep.schedStep CycleStep.fetched)).tail
        (SyncStep.demandStep CycleStep.start)).tail
        (SyncStep.demandStep CycleStep.fetched),
    rfl, rfl⟩

/-- C9.  When the provider call fails, fetchNcaaGames does not propagate the
error: it returns normally with the fixed mock dataset and the logged failure
line, so the refresh cycle still has a renderable batch. -/
theorem fetch_failure_returns_mock (msg : String) :
    fetchNcaaGames (Except.error msg) =
      (getMockTournamentData, ["Error fetching NCAA games: " ++ msg]) := rfl

/-- C10 counterexample.  The duplicate renderer copy (unnamed/part_001), cited
by the claim, never inserts a close-game alert section: on a snapshot with a
non-empty close subset its block sequence still has its fixed length of 15 and
the block directly after the header and its divider is the Games In Progress
heading, not an alert section. -/
theorem closeAlert_missing_counterexample :
    (buildTournamentData getMockTournamentData "2025-03-20T00:00:00").closeGames ≠ [] ∧
    (updateCanvasContentP1
        (buildTournamentData getMockTournamentData "2025-03-20T00:00:00") "now")[2]? =
      some (Block.headerB "Games In Progress") ∧
    (updateCanvasContentP1
        (buildTournamentData getMockTournamentData "2025-03-20T00:00:00") "now").length = 15 := by
  refine ⟨by decide, rfl, rfl⟩

/-- C10 amended, for the renderer copy index.js actually loads
(services/canvasService.js): when the close subset is empty the output is the
fixed base sequence (header, games-in-progress, recently-completed, upcoming,
statistics, footer, with dividers); when it is non-empty, the output is the
base sequence with the close-game alert section and a divider spliced in at
index 2, directly after the header and its divider; and the block at index 2 is
the alert section exactly when the close subset is non-empty. -/
theorem closeAlert_section_spec (data : TournamentData) (now : String) :
    (data.closeGames = [] → updateCanvasContentCs data now = baseBlocksCs data) ∧
    (data.closeGames ≠ [] → updateCanvasContentCs data now =
      (baseBlocksCs data).take 2 ++
        [Block.sectionB (closeAlertText data), Block.divider] ++
        (baseBlocksCs data).drop 2) ∧
    ((updateCanvasContentCs data now)[2]? =
        some (Block.sectionB (closeAlertText data)) ↔
      data.closeGames ≠ []) := by
  refine ⟨?_, ?_, ?_⟩
  · intro h
    unfold updateCanvasContentCs
    simp [h]
  · intro h
    have hl : data.closeGames.length > 0 := List.length_pos.mpr h
    unfold updateCanvasContentCs
    simp [hl]
  · by_cases h : data.closeGames = []
    · have h0 : updateCanvasContentCs data now = baseBlocksCs data := by
        unfold updateCanvasContentCs
        simp [h]
      rw [h0]
      have h2 : (baseBlocksCs data)[2]? = some (Block.headerB "Games In Progress") := rfl
      rw [h2]
      simp [h]
    · have hl : data.closeGames.length > 0 := List.length_pos.mpr h
      have h0 : updateCanvasContentCs data now =
          (baseBlocksCs data).take 2 ++
            [Block.sectionB (closeAlertText data), Block.divider] ++
            (baseBlocksCs data).drop 2 := by
        unfold updateCanvasContentCs
        simp [hl]
      rw [h0]
      have h2 : ((baseBlocksCs data).take 2 ++
          [Block.sectionB (closeAlertText data), Block.divider] ++
          (baseBlocksCs data).drop 2)[2]? =
            some (Block.sectionB (closeAlertText data)) := rfl
      rw [h2]
      simp [h]

/-- Witness for C10's amended statement: the empty batch has an empty close
subset and renders to the plain base sequence; the mock batch has a close game
(NC State at Texas Tech, 3-point gap), and its rendering is the base sequence
with the alert spliced at index 2. -/
theorem closeAlert_witness :
    updateCanvasContentCs (buildTournamentData [] "2025-03-20T00:00:00") "now" =
      baseBlocksCs (buildTournamentData [] "2025-03-20T00:00:00") ∧
    updateCanvasContentCs
        (buildTournamentData getMockTournamentData "2025-03-20T00:00:00") "now" =
      (baseBlocksCs (buildTournamentData getMockTournamentData "2025-03-20T00:00:00")).take 2 ++
        [Block.sectionB (closeAlertText
          (buildTournamentData getMockTournamentData "2025-03-20T00:00:00")),
         Block.divider] ++
        (baseBlocksCs (buildTournamentData getMockTournamentData "2025-03-20T00:00:00")).drop 2 :=
  ⟨(closeAlert_section_spec _ "now").1 (by decide),
   (closeAlert_section_spec _ "now").2.1 (by decide)⟩

end NcaaCanvas
